import Mathlib

/-!
Verification development for the object-side dispatch registry of sdbus-c++
(file src/Object.cpp): the interface registry, the vtable (dispatch table)
builder run by finishRegistration, and the three static dispatch callbacks
(sdbus_method_callback, sdbus_property_get_callback,
sdbus_property_set_callback).

Modelling conventions:
  - std::map<std::string, V> is modelled by SMap V: a list of key-value pairs
    kept sorted by key (SMap.Keyed).  emplace inserts only when the key is
    absent and reports whether it inserted, matching std::map::emplace;
    getOrInsert models operator[], which value-initializes a missing entry;
    set models mutation through the reference returned by operator[].
  - std::function callbacks are Option values; none models an empty
    std::function (the callback tests false in the source).  A present
    callback is represented by the outcome its invocation has on the message
    being dispatched: CbOutcome.normal (the callback returns), a thrown
    sdbus::Error carrying a name and a message, or any other thrown
    exception.
  - SDBUS_THROW_ERROR_IF throws sdbus::Error built from a message string and
    an errno value; registration entry points return the post-state of the
    object together with the thrown error, if any, since the C++ object
    persists across a throw.
  - assert(...) failures abort the process; functions that can hit an assert
    return Option, with none modelling the abort.
  - The sd_bus_vtable items produced by the VTableUtils helpers are modelled
    as tagged descriptors carrying exactly the arguments passed at the call
    sites in Object.cpp; createVTablePropertyItem and
    createVTableWritablePropertyItem are distinct tags.
-/

namespace SdbusCpp

/-- Outcome of invoking a user callback on the message being dispatched:
it returns normally, throws a typed sdbus::Error with a symbolic name and a
message, or throws any other exception. -/
inductive CbOutcome where
  | normal
  | sdbusError (name msg : String)
  | otherException
  deriving DecidableEq

/-- The sdbus::Error thrown by SDBUS_THROW_ERROR_IF: a message string and an
errno code. -/
structure SdErr where
  message : String
  errorCode : Nat
  deriving DecidableEq

/-- The EINVAL errno used by every SDBUS_THROW_ERROR_IF site in Object.cpp. -/
def EINVAL : Nat := 22

/-- Model of std::map<std::string, V>: key-value pairs sorted by key. -/
abbrev SMap (α : Type) : Type := List (String × α)

namespace SMap

variable {α : Type}

/-- Lookup by key (std::map::find). -/
def find? (l : SMap α) (k : String) : Option α :=
  match l with
  | [] => none
  | (k', v) :: rest => if k' = k then some v else find? rest k

/-- The keys of the map, in iteration order. -/
def keys (l : SMap α) : List String :=
  l.map Prod.fst

/-- std::map::emplace: insert (sorted by key) only if the key is absent;
the Bool reports whether insertion happened (the .second of the result). -/
def emplace (l : SMap α) (k : String) (v : α) : SMap α × Bool :=
  match l with
  | [] => ([(k, v)], true)
  | (k', v') :: rest =>
    if k = k' then ((k', v') :: rest, false)
    else if k < k' then ((k, v) :: (k', v') :: rest, true)
    else
      let (rest', inserted) := emplace rest k v
      ((k', v') :: rest', inserted)

/-- std::map::operator[]: return the mapped value, value-initializing a
missing entry; also returns the resulting map. -/
def getOrInsert (l : SMap α) (k : String) (dflt : α) : α × SMap α :=
  match find? l k with
  | some v => (v, l)
  | none => (dflt, (emplace l k dflt).1)

/-- Write back a new value at an existing key (mutation through the
reference returned by operator[]). -/
def set (l : SMap α) (k : String) (v : α) : SMap α :=
  match l with
  | [] => []
  | (k', v') :: rest => if k' = k then (k, v) :: rest else (k', v') :: set rest k v

/-- The std::map representation invariant: strictly increasing keys. -/
def Keyed (l : SMap α) : Prop :=
  l.Pairwise (fun a b => a.1 < b.1)

instance (l : SMap α) : Decidable (Keyed l) :=
  List.instDecidablePairwise l

theorem find?_some_mem {l : SMap α} {k : String} {v : α}
    (h : find? l k = some v) : (k, v) ∈ l := by
  induction l with
  | nil => simp [find?] at h
  | cons p rest ih =>
    rw [find?] at h
    split at h
    · next heq =>
      cases h
      have hp : (k, p.2) = p := by rw [← heq]
      rw [hp]
      exact List.mem_cons_self p rest
    · exact List.mem_cons_of_mem _ (ih h)

theorem mem_keys_of_find?_some {l : SMap α} {k : String} {v : α}
    (h : find? l k = some v) : k ∈ keys l := by
  have := find?_some_mem h
  exact List.mem_map.2 ⟨(k, v), this, rfl⟩

theorem find?_eq_none_iff {l : SMap α} {k : String} :
    find? l k = none ↔ k ∉ keys l := by
  induction l with
  | nil => simp [find?, keys]
  | cons p rest ih =>
    rw [find?]
    by_cases h : p.1 = k
    · simp [keys, h]
    · simp [keys, h, Ne.symm h] at ih ⊢
      exact ih

theorem find?_of_mem_keyed {l : SMap α} {k : String} {v : α}
    (hk : Keyed l) (h : (k, v) ∈ l) : find? l k = some v := by
  induction l with
  | nil => cases h
  | cons p rest ih =>
    rcases List.mem_cons.1 h with h1 | h1
    · rw [← h1, find?, if_pos rfl]
    · have hlt : p.1 < k := by
        have := (List.pairwise_cons.1 hk).1 (k, v) h1
        exact this
      have hne : p.1 ≠ k := ne_of_lt hlt
      rw [find?, if_neg hne]
      exact ih (List.pairwise_cons.1 hk).2 h1

theorem keyed_unique {l : SMap α} {k : String} {a b : α}
    (hk : Keyed l) (ha : (k, a) ∈ l) (hb : (k, b) ∈ l) : a = b := by
  have h1 := find?_of_mem_keyed hk ha
  have h2 := find?_of_mem_keyed hk hb
  rw [h1] at h2
  exact Option.some.inj h2

theorem emplace_of_find?_some {l : SMap α} {k : String} {v w : α}
    (hk : Keyed l) (h : find? l k = some v) : emplace l k w = (l, false) := by
  induction l with
  | nil => simp [find?] at h
  | cons p rest ih =>
    rw [find?] at h
    rw [emplace]
    by_cases heq : k = p.1
    · simp [heq]
    · rw [if_neg heq]
      rw [if_neg (Ne.symm heq)] at h
      have hmem : k ∈ keys rest := mem_keys_of_find?_some h
      have hgt : p.1 < k := by
        rcases List.mem_map.1 hmem with ⟨q, hq, hqk⟩
        have := (List.pairwise_cons.1 hk).1 q hq
        rw [hqk] at this
        exact this
      rw [if_neg (asymm hgt)]
      rw [ih (List.pairwise_cons.1 hk).2 h]

theorem emplace_of_find?_none {l : SMap α} {k : String} {v : α}
    (h : find? l k = none) :
    (emplace l k v).2 = true ∧ find? (emplace l k v).1 k = some v := by
  induction l with
  | nil => simp [emplace, find?]
  | cons p rest ih =>
    rw [find?] at h
    split at h
    · exact absurd h (by simp)
    · next hne =>
      rw [emplace]
      by_cases heq : k = p.1
      · exact absurd heq.symm hne
      · rw [if_neg heq]
        by_cases hlt : k < p.1
        · simp [hlt, find?]
        · have := ih h
          simp only [if_neg hlt]
          refine ⟨this.1, ?_⟩
          rw [find?, if_neg hne]
          exact this.2

theorem find?_emplace_of_ne {l : SMap α} {k k' : String} {v : α}
    (hne : k' ≠ k) : find? (emplace l k v).1 k' = find? l k' := by
  induction l with
  | nil => simp [emplace, find?, Ne.symm hne]
  | cons p rest ih =>
    rw [emplace]
    by_cases heq : k = p.1
    · simp [heq]
    · rw [if_neg heq]
      by_cases hlt : k < p.1
      · rw [if_pos hlt]
        rw [find?, if_neg (Ne.symm hne)]
      · rw [if_neg hlt]
        rw [find?, find?]
        split
        · rfl
        · exact ih

theorem keys_nil : keys ([] : SMap α) = [] := rfl

theorem keys_cons {p : String × α} {l : SMap α} :
    keys (p :: l) = p.1 :: keys l := rfl

theorem keys_emplace {l : SMap α} {k : String} {v : α} :
    ∀ x ∈ keys (emplace l k v).1, x = k ∨ x ∈ keys l := by
  induction l with
  | nil =>
    intro x hx
    simp [emplace, keys] at hx
    exact Or.inl hx
  | cons p rest ih =>
    intro x hx
    rw [emplace] at hx
    by_cases heq : k = p.1
    · rw [if_pos heq] at hx
      exact Or.inr hx
    · rw [if_neg heq] at hx
      by_cases hlt : k < p.1
      · rw [if_pos hlt, keys_cons] at hx
        rcases List.mem_cons.1 hx with h | h
        · exact Or.inl h
        · exact Or.inr h
      · rw [if_neg hlt, keys_cons] at hx
        rcases List.mem_cons.1 hx with h | h
        · exact Or.inr (by rw [keys_cons]; exact List.mem_cons.2 (Or.inl h))
        · rcases ih x h with h1 | h1
          · exact Or.inl h1
          · exact Or.inr (by rw [keys_cons]; exact List.mem_cons.2 (Or.inr h1))

theorem keyed_emplace {l : SMap α} {k : String} {v : α}
    (hk : Keyed l) : Keyed (emplace l k v).1 := by
  induction l with
  | nil => simp [emplace, Keyed]
  | cons p rest ih =>
    rw [emplace]
    by_cases heq : k = p.1
    · simpa [heq] using hk
    · rw [if_neg heq]
      by_cases hlt : k < p.1
      · rw [if_pos hlt]
        refine List.pairwise_cons.2 ⟨?_, hk⟩
        intro q hq
        rcases List.mem_cons.1 hq with h1 | h1
        · rw [h1]; exact hlt
        · exact lt_trans hlt ((List.pairwise_cons.1 hk).1 q h1)
      · rw [if_neg hlt]
        have hgt : p.1 < k := by
          rcases lt_trichotomy k p.1 with h | h | h
          · exact absurd h hlt
          · exact absurd h heq
          · exact h
        refine List.pairwise_cons.2 ⟨?_, ih (List.pairwise_cons.1 hk).2⟩
        intro q hq
        have hmem := keys_emplace (l := rest) (k := k) (v := v) q.1
          (List.mem_map.2 ⟨q, hq, rfl⟩)
        rcases hmem with h1 | h1
        · rw [h1]; exact hgt
        · rcases List.mem_map.1 h1 with ⟨q', hq', hqq⟩
          have := (List.pairwise_cons.1 hk).1 q' hq'
          rw [hqq] at this
          exact this

theorem set_of_find?_some {l : SMap α} {k : String} {v : α}
    (h : find? l k = some v) : set l k v = l := by
  induction l with
  | nil => rfl
  | cons p rest ih =>
    rw [find?] at h
    rw [set]
    split at h
    · next heq =>
      cases h
      have hp : (k, p.2) = p := by rw [← heq]
      rw [if_pos heq, hp]
    · next hne =>
      rw [if_neg hne, ih h]

theorem find?_set_self {l : SMap α} {k : String} {v w : α}
    (h : find? l k = some w) : find? (set l k v) k = some v := by
  induction l with
  | nil => simp [find?] at h
  | cons p rest ih =>
    rw [find?] at h
    rw [set]
    split at h
    · next heq =>
      rw [if_pos heq, find?, if_pos rfl]
    · next hne =>
      rw [if_neg hne, find?, if_neg hne]
      exact ih h

theorem find?_set_of_ne {l : SMap α} {k k' : String} {v : α}
    (hne : k' ≠ k) : find? (set l k v) k' = find? l k' := by
  induction l with
  | nil => rfl
  | cons p rest ih =>
    rw [set]
    split
    · next heq =>
      rw [find?, find?, if_neg (Ne.symm hne), heq, if_neg (Ne.symm hne)]
    · next hne2 =>
      rw [find?, find?]
      split
      · rfl
      · exact ih

theorem keys_set {l : SMap α} {k : String} {v : α}
    (h : k ∈ keys l) : keys (set l k v) = keys l := by
  induction l with
  | nil => rfl
  | cons p rest ih =>
    rw [set]
    split
    · next heq => rw [keys_cons, keys_cons, heq]
    · next hne =>
      have hmem : k ∈ keys rest := by
        rcases List.mem_map.1 h with ⟨q, hq, hqk⟩
        rcases List.mem_cons.1 hq with h1 | h1
        · rw [h1] at hqk; exact absurd hqk hne
        · exact List.mem_map.2 ⟨q, h1, hqk⟩
      rw [keys_cons, keys_cons, ih hmem]

theorem mem_set {l : SMap α} {k : String} {v : α} :
    ∀ x ∈ set l k v, x = (k, v) ∨ x ∈ l := by
  induction l with
  | nil => simp [set]
  | cons p rest ih =>
    rw [set]
    split
    · intro x hx
      rcases List.mem_cons.1 hx with h1 | h1
      · exact Or.inl h1
      · exact Or.inr (List.mem_cons_of_mem _ h1)
    · intro x hx
      rcases List.mem_cons.1 hx with h1 | h1
      · exact Or.inr (h1 ▸ List.mem_cons_self _ _)
      · rcases ih x h1 with h2 | h2
        · exact Or.inl h2
        · exact Or.inr (List.mem_cons_of_mem _ h2)

theorem keyed_iff_pairwise_keys {l : SMap α} :
    Keyed l ↔ (keys l).Pairwise (· < ·) := by
  rw [Keyed, keys, List.pairwise_map]

theorem keyed_set {l : SMap α} {k : String} {v : α}
    (hk : Keyed l) (hmem : k ∈ keys l) : Keyed (set l k v) := by
  rw [keyed_iff_pairwise_keys, keys_set hmem]
  exact keyed_iff_pairwise_keys.1 hk

end SMap

/-- InterfaceData::MethodData: input signature, output signature, callback.
none models an empty std::function; a present callback carries the outcome
its invocation has on the dispatched message. -/
structure MethodData where
  inputArgs_ : String
  outputArgs_ : String
  callback_ : Option CbOutcome
  deriving DecidableEq, Inhabited

/-- InterfaceData::SignalData: signature only. -/
structure SignalData where
  signature_ : String
  deriving DecidableEq, Inhabited

/-- InterfaceData::PropertyData: signature, optional getter, optional
setter. -/
structure PropertyData where
  signature_ : String
  getCallback_ : Option CbOutcome
  setCallback_ : Option CbOutcome
  deriving DecidableEq, Inhabited

/-- One sd_bus_vtable element as produced by the VTableUtils helpers called
from Object.cpp, modelled as a tag carrying the call-site arguments.
methodItem additionally binds sdbus_method_callback, propertyItem binds
sdbus_property_get_callback, and writablePropertyItem binds both the get and
the set callbacks. -/
inductive VTableItem where
  | startItem
  | methodItem (name inputArgs outputArgs : String)
  | signalItem (name signature : String)
  | propertyItem (name signature : String)
  | writablePropertyItem (name signature : String)
  | endItem
  deriving DecidableEq

/-- Object::InterfaceData: the three member maps, the vtable vector (empty
until built), and the registration slot (false models a null slot,
true a slot obtained from addObjectVTable). -/
structure InterfaceData where
  methods_ : SMap MethodData
  signals_ : SMap SignalData
  properties_ : SMap PropertyData
  vtable_ : List VTableItem
  slot_ : Bool
  deriving DecidableEq, Inhabited

/-- The Object: its path and the interface registry.  The connection
reference is an external collaborator and carries no state of its own in
this model. -/
structure Object where
  objectPath_ : String
  interfaces_ : SMap InterfaceData
  deriving DecidableEq

/-- Object::Object: fresh object with an empty registry. -/
def Object.mkObject (objectPath : String) : Object :=
  { objectPath_ := objectPath, interfaces_ := [] }

/-- Object::registerMethod.  Returns the post-state and the sdbus::Error
thrown by SDBUS_THROW_ERROR_IF, if any (the C++ object survives the
throw). -/
def Object.registerMethod (o : Object)
    (interfaceName methodName inputSignature outputSignature : String)
    (methodCallback : Option CbOutcome) : Object × Option SdErr :=
  if methodCallback.isNone then
    (o, some { message := "Invalid method callback provided", errorCode := EINVAL })
  else
    let (ifd, ifs) := SMap.getOrInsert o.interfaces_ interfaceName default
    let methodData : MethodData :=
      { inputArgs_ := inputSignature, outputArgs_ := outputSignature
        callback_ := methodCallback }
    let (ms, inserted) := SMap.emplace ifd.methods_ methodName methodData
    let o2 : Object :=
      { o with interfaces_ := SMap.set ifs interfaceName { ifd with methods_ := ms } }
    if inserted then (o2, none)
    else (o2, some { message := "Failed to register method: method already exists"
                     errorCode := EINVAL })

/-- Object::registerSignal. -/
def Object.registerSignal (o : Object)
    (interfaceName signalName signature : String) : Object × Option SdErr :=
  let (ifd, ifs) := SMap.getOrInsert o.interfaces_ interfaceName default
  let signalData : SignalData := { signature_ := signature }
  let (ss, inserted) := SMap.emplace ifd.signals_ signalName signalData
  let o2 : Object :=
    { o with interfaces_ := SMap.set ifs interfaceName { ifd with signals_ := ss } }
  if inserted then (o2, none)
  else (o2, some { message := "Failed to register signal: signal already exists"
                   errorCode := EINVAL })

/-- Object::registerProperty (the five-argument overload). -/
def Object.registerProperty (o : Object)
    (interfaceName propertyName signature : String)
    (getCallback setCallback : Option CbOutcome) : Object × Option SdErr :=
  if getCallback.isNone && setCallback.isNone then
    (o, some { message := "Invalid property callbacks provided", errorCode := EINVAL })
  else
    let (ifd, ifs) := SMap.getOrInsert o.interfaces_ interfaceName default
    let propertyData : PropertyData :=
      { signature_ := signature, getCallback_ := getCallback
        setCallback_ := setCallback }
    let (ps, inserted) := SMap.emplace ifd.properties_ propertyName propertyData
    let o2 : Object :=
      { o with interfaces_ := SMap.set ifs interfaceName { ifd with properties_ := ps } }
    if inserted then (o2, none)
    else (o2, some { message := "Failed to register property: property already exists"
                     errorCode := EINVAL })

/-- Object::registerProperty (the getter-only convenience overload): it
forwards to the five-argument overload with an empty setter. -/
def Object.registerPropertyReadOnly (o : Object)
    (interfaceName propertyName signature : String)
    (getCallback : Option CbOutcome) : Object × Option SdErr :=
  o.registerProperty interfaceName propertyName signature getCallback none

/-- Object::registerMethodsToVTable: one createVTableMethodItem per method,
in map iteration order. -/
def registerMethodsToVTable (ifd : InterfaceData) : List VTableItem :=
  ifd.methods_.map fun p =>
    VTableItem.methodItem p.1 p.2.inputArgs_ p.2.outputArgs_

/-- Object::registerSignalsToVTable. -/
def registerSignalsToVTable (ifd : InterfaceData) : List VTableItem :=
  ifd.signals_.map fun p =>
    VTableItem.signalItem p.1 p.2.signature_

/-- Object::registerPropertiesToVTable: createVTablePropertyItem when the
set callback is empty, createVTableWritablePropertyItem otherwise. -/
def registerPropertiesToVTable (ifd : InterfaceData) : List VTableItem :=
  ifd.properties_.map fun p =>
    if p.2.setCallback_.isNone then
      VTableItem.propertyItem p.1 p.2.signature_
    else
      VTableItem.writablePropertyItem p.1 p.2.signature_

/-- Object::createInterfaceVTable: asserts the vtable is still empty (none
models the aborted assertion), then pushes the start item, the methods, the
signals, the properties, and the end item, storing the vector in the
InterfaceData and returning it. -/
def createInterfaceVTable (ifd : InterfaceData) :
    Option (InterfaceData × List VTableItem) :=
  if ifd.vtable_.isEmpty then
    let vt : List VTableItem :=
      [VTableItem.startItem]
        ++ registerMethodsToVTable ifd
        ++ registerSignalsToVTable ifd
        ++ registerPropertiesToVTable ifd
        ++ [VTableItem.endItem]
    some ({ ifd with vtable_ := vt }, vt)
  else
    none

/-- The per-interface loop body of Object::finishRegistration: build the
vtable and activate it (activateInterfaceVTable installs the vtable through
the connection and stores the returned slot). -/
def finishInterfaces : SMap InterfaceData → Option (SMap InterfaceData)
  | [] => some []
  | (n, d) :: rest =>
    match createInterfaceVTable d with
    | none => none
    | some (d1, _) =>
      match finishInterfaces rest with
      | none => none
      | some rest' => some ((n, { d1 with slot_ := true }) :: rest')

/-- Object::finishRegistration: for every interface in the registry, build
and activate its vtable.  none models the abort of the vtable-empty
assertion inside createInterfaceVTable. -/
def Object.finishRegistration (o : Object) : Option Object :=
  (finishInterfaces o.interfaces_).map fun l => { o with interfaces_ := l }

/-- What one dispatch entry point observably does at the transport
boundary. -/
inductive DispatchResult where
  /-- The normal reply was sent and the handler returned 1. -/
  | replied
  /-- sd_bus_error_set was called with this name and message and the handler
  returned 1; no normal reply was sent. -/
  | errorReply (name msg : String)
  /-- The handler returned 1 without sending a message itself (property get
  success, where the transport sends the populated reply, and property set
  success). -/
  | returnedOnly
  /-- An assert(callback) failed: the process aborts. -/
  | assertionFailure
  /-- An exception other than sdbus::Error escaped the handler into the
  transport. -/
  | uncaughtException
  deriving DecidableEq

/-- Outcome of one inbound dispatch: the post-state of the object (the
operator-bracket lookups may default-insert entries), the boundary result,
and whether the user callback was invoked. -/
structure DispatchOutcome where
  post : Object
  result : DispatchResult
  callbackInvoked : Bool
  deriving DecidableEq

/-- The operator-bracket lookup interfaces_[interface].methods_[member]
performed by sdbus_method_callback: returns the resolved MethodData and the
post-state (operator[] default-inserts missing entries). -/
def Object.methodLookup (o : Object)
    (interfaceName memberName : String) : MethodData × Object :=
  let (ifd, ifs) := SMap.getOrInsert o.interfaces_ interfaceName default
  let (md, ms) := SMap.getOrInsert ifd.methods_ memberName default
  (md, { o with
         interfaces_ := SMap.set ifs interfaceName { ifd with methods_ := ms } })

/-- The operator-bracket lookup interfaces_[interface].properties_[property]
performed by both property dispatch callbacks. -/
def Object.propLookup (o : Object)
    (interfaceName propertyName : String) : PropertyData × Object :=
  let (ifd, ifs) := SMap.getOrInsert o.interfaces_ interfaceName default
  let (pd, ps) := SMap.getOrInsert ifd.properties_ propertyName default
  (pd, { o with
         interfaces_ := SMap.set ifs interfaceName { ifd with properties_ := ps } })

/-- Object::sdbus_method_callback: resolve the callback with
interfaces_[interface].methods_[member].callback_, assert it is bound,
create the reply, invoke the callback under try/catch (catching only
sdbus::Error, which is turned into sd_bus_error_set), then send the reply
and return 1. -/
def Object.sdbus_method_callback (o : Object)
    (interfaceName memberName : String) : DispatchOutcome :=
  let (md, o2) := o.methodLookup interfaceName memberName
  match md.callback_ with
  | none => { post := o2, result := .assertionFailure, callbackInvoked := false }
  | some .normal => { post := o2, result := .replied, callbackInvoked := true }
  | some (.sdbusError n m) =>
      { post := o2, result := .errorReply n m, callbackInvoked := true }
  | some .otherException =>
      { post := o2, result := .uncaughtException, callbackInvoked := true }

/-- Object::sdbus_property_get_callback: resolve the getter with
interfaces_[interface].properties_[property].getCallback_; an empty getter
is the write-only case and yields a fixed Failed error without invoking
anything; otherwise invoke the getter under try/catch (catching only
sdbus::Error) and return 1. -/
def Object.sdbus_property_get_callback (o : Object)
    (interfaceName propertyName : String) : DispatchOutcome :=
  let (pd, o2) := o.propLookup interfaceName propertyName
  match pd.getCallback_ with
  | none =>
      { post := o2
        result := .errorReply "org.freedesktop.DBus.Error.Failed"
          "Cannot read property as it is write-only"
        callbackInvoked := false }
  | some .normal => { post := o2, result := .returnedOnly, callbackInvoked := true }
  | some (.sdbusError n m) =>
      { post := o2, result := .errorReply n m, callbackInvoked := true }
  | some .otherException =>
      { post := o2, result := .uncaughtException, callbackInvoked := true }

/-- Object::sdbus_property_set_callback: resolve the setter with
interfaces_[interface].properties_[property].setCallback_, assert it is
bound, invoke it under try/catch (catching only sdbus::Error) and
return 1. -/
def Object.sdbus_property_set_callback (o : Object)
    (interfaceName propertyName : String) : DispatchOutcome :=
  let (pd, o2) := o.propLookup interfaceName propertyName
  match pd.setCallback_ with
  | none => { post := o2, result := .assertionFailure, callbackInvoked := false }
  | some .normal => { post := o2, result := .returnedOnly, callbackInvoked := true }
  | some (.sdbusError n m) =>
      { post := o2, result := .errorReply n m, callbackInvoked := true }
  | some .otherException =>
      { post := o2, result := .uncaughtException, callbackInvoked := true }

/-- Pure registry lookup of a method descriptor (no default insertion);
used to state which descriptor a dispatch resolves. -/
def Object.findMethod? (o : Object) (interfaceName memberName : String) :
    Option MethodData :=
  (SMap.find? o.interfaces_ interfaceName).bind fun d =>
    SMap.find? d.methods_ memberName

/-- Pure registry lookup of a signal descriptor. -/
def Object.findSignal? (o : Object) (interfaceName signalName : String) :
    Option SignalData :=
  (SMap.find? o.interfaces_ interfaceName).bind fun d =>
    SMap.find? d.signals_ signalName

/-- Pure registry lookup of a property descriptor. -/
def Object.findProperty? (o : Object) (interfaceName propertyName : String) :
    Option PropertyData :=
  (SMap.find? o.interfaces_ interfaceName).bind fun d =>
    SMap.find? d.properties_ propertyName

/-- The method callback a dispatch resolves through the operator-bracket
lookups: the registered one, or the default-constructed (empty) one when
the pair is not registered. -/
def Object.resolvedMethodCb (o : Object) (interfaceName memberName : String) :
    Option CbOutcome :=
  ((o.findMethod? interfaceName memberName).getD default).callback_

/-- The getter a property-get dispatch resolves. -/
def Object.resolvedGetCb (o : Object) (interfaceName propertyName : String) :
    Option CbOutcome :=
  ((o.findProperty? interfaceName propertyName).getD default).getCallback_

/-- The setter a property-set dispatch resolves. -/
def Object.resolvedSetCb (o : Object) (interfaceName propertyName : String) :
    Option CbOutcome :=
  ((o.findProperty? interfaceName propertyName).getD default).setCallback_

/-- Well-formedness of one InterfaceData: the three member maps satisfy the
std::map representation invariant. -/
def InterfaceData.WF (d : InterfaceData) : Prop :=
  SMap.Keyed d.methods_ ∧ SMap.Keyed d.signals_ ∧ SMap.Keyed d.properties_

instance (d : InterfaceData) : Decidable d.WF := by
  unfold InterfaceData.WF
  infer_instance

/-- Well-formedness of an Object: the interface map and every member map
satisfy the std::map representation invariant. -/
def Object.WF (o : Object) : Prop :=
  SMap.Keyed o.interfaces_ ∧ ∀ p ∈ o.interfaces_, p.2.WF

instance (o : Object) : Decidable o.WF := by
  unfold Object.WF
  infer_instance

namespace SMap

theorem getOrInsert_some {α : Type} {l : SMap α} {k : String} {v : α}
    (d : α) (h : find? l k = some v) : getOrInsert l k d = (v, l) := by
  rw [getOrInsert, h]

theorem getOrInsert_none {α : Type} {l : SMap α} {k : String}
    (d : α) (h : find? l k = none) :
    getOrInsert l k d = (d, (emplace l k d).1) := by
  rw [getOrInsert, h]

end SMap

theorem methodLookup_registered {o : Object} {i m : String} {md : MethodData}
    (h : o.findMethod? i m = some md) : o.methodLookup i m = (md, o) := by
  rcases Option.bind_eq_some.1 h with ⟨ifd, hif, hmd⟩
  unfold Object.methodLookup
  rw [SMap.getOrInsert_some default hif]
  dsimp only
  rw [SMap.getOrInsert_some default hmd]
  dsimp only
  rw [show ({ ifd with methods_ := ifd.methods_ } : InterfaceData) = ifd from rfl,
    SMap.set_of_find?_some hif]

theorem propLookup_registered {o : Object} {i p : String} {pd : PropertyData}
    (h : o.findProperty? i p = some pd) : o.propLookup i p = (pd, o) := by
  rcases Option.bind_eq_some.1 h with ⟨ifd, hif, hpd⟩
  unfold Object.propLookup
  rw [SMap.getOrInsert_some default hif]
  dsimp only
  rw [SMap.getOrInsert_some default hpd]
  dsimp only
  rw [show ({ ifd with properties_ := ifd.properties_ } : InterfaceData) = ifd from rfl,
    SMap.set_of_find?_some hif]

theorem methodLookup_unregistered {o : Object} {i m : String}
    (h : o.findMethod? i m = none) :
    (o.methodLookup i m).1 = default ∧
    ((o.methodLookup i m).2).findMethod? i m = some default ∧
    (o.methodLookup i m).2 ≠ o := by
  have main : (o.methodLookup i m).1 = default ∧
      ((o.methodLookup i m).2).findMethod? i m = some default := by
    unfold Object.methodLookup
    rcases hif : SMap.find? o.interfaces_ i with _ | ifd
    · -- the interface itself is absent: operator[] inserts a default entry
      rw [SMap.getOrInsert_none default hif]
      dsimp only
      have hm0 : SMap.find? (default : InterfaceData).methods_ m = none := rfl
      rw [SMap.getOrInsert_none default hm0]
      dsimp only
      refine ⟨rfl, ?_⟩
      unfold Object.findMethod?
      rw [SMap.find?_set_self (SMap.emplace_of_find?_none (v := (default : InterfaceData)) hif).2]
      dsimp only [Option.bind]
      exact (SMap.emplace_of_find?_none hm0).2
    · -- the interface exists but the method does not
      rw [SMap.getOrInsert_some default hif]
      dsimp only
      have hm0 : SMap.find? ifd.methods_ m = none := by
        unfold Object.findMethod? at h
        rw [hif] at h
        simpa using h
      rw [SMap.getOrInsert_none default hm0]
      dsimp only
      refine ⟨rfl, ?_⟩
      unfold Object.findMethod?
      rw [SMap.find?_set_self
        (v := { ifd with methods_ := (SMap.emplace ifd.methods_ m default).1 }) hif]
      dsimp only [Option.bind]
      exact (SMap.emplace_of_find?_none hm0).2
  refine ⟨main.1, main.2, ?_⟩
  intro heq
  rw [heq] at main
  rw [h] at main
  exact Option.noConfusion main.2

theorem propLookup_unregistered {o : Object} {i p : String}
    (h : o.findProperty? i p = none) :
    (o.propLookup i p).1 = default ∧
    ((o.propLookup i p).2).findProperty? i p = some default ∧
    (o.propLookup i p).2 ≠ o := by
  have main : (o.propLookup i p).1 = default ∧
      ((o.propLookup i p).2).findProperty? i p = some default := by
    unfold Object.propLookup
    rcases hif : SMap.find? o.interfaces_ i with _ | ifd
    · rw [SMap.getOrInsert_none default hif]
      dsimp only
      have hp0 : SMap.find? (default : InterfaceData).properties_ p = none := rfl
      rw [SMap.getOrInsert_none default hp0]
      dsimp only
      refine ⟨rfl, ?_⟩
      unfold Object.findProperty?
      rw [SMap.find?_set_self (SMap.emplace_of_find?_none (v := (default : InterfaceData)) hif).2]
      dsimp only [Option.bind]
      exact (SMap.emplace_of_find?_none hp0).2
    · rw [SMap.getOrInsert_some default hif]
      dsimp only
      have hp0 : SMap.find? ifd.properties_ p = none := by
        unfold Object.findProperty? at h
        rw [hif] at h
        simpa using h
      rw [SMap.getOrInsert_none default hp0]
      dsimp only
      refine ⟨rfl, ?_⟩
      unfold Object.findProperty?
      rw [SMap.find?_set_self
        (v := { ifd with properties_ := (SMap.emplace ifd.properties_ p default).1 }) hif]
      dsimp only [Option.bind]
      exact (SMap.emplace_of_find?_none hp0).2
  refine ⟨main.1, main.2, ?_⟩
  intro heq
  rw [heq] at main
  rw [h] at main
  exact Option.noConfusion main.2

theorem sdbus_method_callback_eq (o : Object) (i m : String) :
    o.sdbus_method_callback i m =
      match (o.methodLookup i m).1.callback_ with
      | none => ⟨(o.methodLookup i m).2, .assertionFailure, false⟩
      | some .normal => ⟨(o.methodLookup i m).2, .replied, true⟩
      | some (.sdbusError n msg) =>
          ⟨(o.methodLookup i m).2, .errorReply n msg, true⟩
      | some .otherException =>
          ⟨(o.methodLookup i m).2, .uncaughtException, true⟩ := by
  unfold Object.sdbus_method_callback
  rcases hl : o.methodLookup i m with ⟨md, o2⟩
  dsimp only

theorem sdbus_property_get_callback_eq (o : Object) (i p : String) :
    o.sdbus_property_get_callback i p =
      match (o.propLookup i p).1.getCallback_ with
      | none =>
          ⟨(o.propLookup i p).2,
            .errorReply "org.freedesktop.DBus.Error.Failed"
              "Cannot read property as it is write-only", false⟩
      | some .normal => ⟨(o.propLookup i p).2, .returnedOnly, true⟩
      | some (.sdbusError n msg) =>
          ⟨(o.propLookup i p).2, .errorReply n msg, true⟩
      | some .otherException =>
          ⟨(o.propLookup i p).2, .uncaughtException, true⟩ := by
  unfold Object.sdbus_property_get_callback
  rcases hl : o.propLookup i p with ⟨pd, o2⟩
  dsimp only

theorem sdbus_property_set_callback_eq (o : Object) (i p : String) :
    o.sdbus_property_set_callback i p =
      match (o.propLookup i p).1.setCallback_ with
      | none => ⟨(o.propLookup i p).2, .assertionFailure, false⟩
      | some .normal => ⟨(o.propLookup i p).2, .returnedOnly, true⟩
      | some (.sdbusError n msg) =>
          ⟨(o.propLookup i p).2, .errorReply n msg, true⟩
      | some .otherException =>
          ⟨(o.propLookup i p).2, .uncaughtException, true⟩ := by
  unfold Object.sdbus_property_set_callback
  rcases hl : o.propLookup i p with ⟨pd, o2⟩
  dsimp only

theorem sdbus_method_callback_post (o : Object) (i m : String) :
    (o.sdbus_method_callback i m).post = (o.methodLookup i m).2 := by
  rw [sdbus_method_callback_eq]
  rcases (o.methodLookup i m).1.callback_ with _ | cb
  · rfl
  · cases cb <;> rfl

theorem sdbus_property_get_callback_post (o : Object) (i p : String) :
    (o.sdbus_property_get_callback i p).post = (o.propLookup i p).2 := by
  rw [sdbus_property_get_callback_eq]
  rcases (o.propLookup i p).1.getCallback_ with _ | cb
  · rfl
  · cases cb <;> rfl

theorem sdbus_property_set_callback_post (o : Object) (i p : String) :
    (o.sdbus_property_set_callback i p).post = (o.propLookup i p).2 := by
  rw [sdbus_property_set_callback_eq]
  rcases (o.propLookup i p).1.setCallback_ with _ | cb
  · rfl
  · cases cb <;> rfl

theorem SMap.mem_emplace {α : Type} {l : SMap α} {k : String} {v : α} :
    ∀ x ∈ (SMap.emplace l k v).1, x = (k, v) ∨ x ∈ l := by
  induction l with
  | nil =>
    intro x hx
    simp [SMap.emplace] at hx
    exact Or.inl hx
  | cons p rest ih =>
    intro x hx
    rw [SMap.emplace] at hx
    by_cases heq : k = p.1
    · rw [if_pos heq] at hx
      exact Or.inr hx
    · rw [if_neg heq] at hx
      by_cases hlt : k < p.1
      · rw [if_pos hlt] at hx
        rcases List.mem_cons.1 hx with h | h
        · exact Or.inl h
        · exact Or.inr h
      · rw [if_neg hlt] at hx
        rcases List.mem_cons.1 hx with h | h
        · exact Or.inr (h ▸ List.mem_cons_self _ _)
        · rcases ih x h with h1 | h1
          · exact Or.inl h1
          · exact Or.inr (List.mem_cons_of_mem _ h1)

theorem default_interfaceData_WF : (default : InterfaceData).WF :=
  ⟨List.Pairwise.nil, List.Pairwise.nil, List.Pairwise.nil⟩

/-- Common shape of a registration's state update: look the interface up via
operator-bracket (default-inserting) and write back an updated entry; the
update preserves well-formedness whenever it preserves the entry's own
well-formedness. -/
theorem set_getOrInsert_WF {o : Object} (hwf : o.WF) {i : String}
    {ifd : InterfaceData} {ifs : SMap InterfaceData}
    (hgi : SMap.getOrInsert o.interfaces_ i default = (ifd, ifs))
    (d' : InterfaceData) (hd' : ifd.WF → d'.WF) :
    ({ o with interfaces_ := SMap.set ifs i d' } : Object).WF := by
  rcases hf : SMap.find? o.interfaces_ i with _ | ifd0
  · -- interface absent: operator[] inserted a default entry first
    rw [SMap.getOrInsert_none default hf] at hgi
    have hifd : ifd = default := (Prod.mk.injEq _ _ _ _ ▸ hgi).1.symm
    have hifs : ifs = (SMap.emplace o.interfaces_ i default).1 :=
      (Prod.mk.injEq _ _ _ _ ▸ hgi).2.symm
    have hkeyed : SMap.Keyed ifs := hifs ▸ SMap.keyed_emplace hwf.1
    have hmem : i ∈ SMap.keys ifs := by
      rw [hifs]
      exact SMap.mem_keys_of_find?_some (SMap.emplace_of_find?_none hf).2
    refine ⟨SMap.keyed_set hkeyed hmem, ?_⟩
    intro q hq
    rcases SMap.mem_set q hq with h1 | h1
    · rw [h1]
      exact hd' (hifd ▸ default_interfaceData_WF)
    · rw [hifs] at h1
      rcases SMap.mem_emplace q h1 with h2 | h2
      · rw [h2]
        exact default_interfaceData_WF
      · exact hwf.2 q h2
  · -- interface present: operator[] returned the existing entry
    rw [SMap.getOrInsert_some default hf] at hgi
    have hifd : ifd = ifd0 := (Prod.mk.injEq _ _ _ _ ▸ hgi).1.symm
    have hifs : ifs = o.interfaces_ := (Prod.mk.injEq _ _ _ _ ▸ hgi).2.symm
    have hmem : i ∈ SMap.keys ifs := by
      rw [hifs]
      exact SMap.mem_keys_of_find?_some hf
    refine ⟨SMap.keyed_set (hifs ▸ hwf.1) hmem, ?_⟩
    intro q hq
    rcases SMap.mem_set q hq with h1 | h1
    · rw [h1]
      exact hd' (hifd ▸ hwf.2 (i, ifd0) (SMap.find?_some_mem hf))
    · rw [hifs] at h1
      exact hwf.2 q h1

theorem registerMethod_WF {o : Object} (hwf : o.WF)
    (i m insig outsig : String) (cb : Option CbOutcome) :
    ((o.registerMethod i m insig outsig cb).1).WF := by
  unfold Object.registerMethod
  split
  · exact hwf
  · rcases hgi : SMap.getOrInsert o.interfaces_ i default with ⟨ifd, ifs⟩
    dsimp only
    rcases hem : SMap.emplace ifd.methods_ m
        { inputArgs_ := insig, outputArgs_ := outsig, callback_ := cb } with ⟨ms, ins⟩
    dsimp only
    have hms : SMap.Keyed ifd.methods_ → SMap.Keyed ms := by
      intro h
      have := SMap.keyed_emplace (l := ifd.methods_) (k := m)
        (v := { inputArgs_ := insig, outputArgs_ := outsig, callback_ := cb }) h
      rw [hem] at this
      exact this
    split
    · exact set_getOrInsert_WF hwf hgi _ (fun h => ⟨hms h.1, h.2.1, h.2.2⟩)
    · exact set_getOrInsert_WF hwf hgi _ (fun h => ⟨hms h.1, h.2.1, h.2.2⟩)

theorem registerSignal_WF {o : Object} (hwf : o.WF)
    (i n sig : String) : ((o.registerSignal i n sig).1).WF := by
  unfold Object.registerSignal
  rcases hgi : SMap.getOrInsert o.interfaces_ i default with ⟨ifd, ifs⟩
  dsimp only
  rcases hem : SMap.emplace ifd.signals_ n { signature_ := sig } with ⟨ss, ins⟩
  dsimp only
  have hss : SMap.Keyed ifd.signals_ → SMap.Keyed ss := by
    intro h
    have := SMap.keyed_emplace (l := ifd.signals_) (k := n)
      (v := { signature_ := sig }) h
    rw [hem] at this
    exact this
  split
  · exact set_getOrInsert_WF hwf hgi _ (fun h => ⟨h.1, hss h.2.1, h.2.2⟩)
  · exact set_getOrInsert_WF hwf hgi _ (fun h => ⟨h.1, hss h.2.1, h.2.2⟩)

theorem registerProperty_WF {o : Object} (hwf : o.WF)
    (i n sig : String) (g s : Option CbOutcome) :
    ((o.registerProperty i n sig g s).1).WF := by
  unfold Object.registerProperty
  split
  · exact hwf
  · rcases hgi : SMap.getOrInsert o.interfaces_ i default with ⟨ifd, ifs⟩
    dsimp only
    rcases hem : SMap.emplace ifd.properties_ n
        { signature_ := sig, getCallback_ := g, setCallback_ := s } with ⟨ps, ins⟩
    dsimp only
    have hps : SMap.Keyed ifd.properties_ → SMap.Keyed ps := by
      intro h
      have := SMap.keyed_emplace (l := ifd.properties_) (k := n)
        (v := { signature_ := sig, getCallback_ := g, setCallback_ := s }) h
      rw [hem] at this
      exact this
    split
    · exact set_getOrInsert_WF hwf hgi _ (fun h => ⟨h.1, h.2.1, hps h.2.2⟩)
    · exact set_getOrInsert_WF hwf hgi _ (fun h => ⟨h.1, h.2.1, hps h.2.2⟩)

theorem registerMethod_fresh {o : Object} {i m : String}
    (insig outsig : String) (cb : CbOutcome)
    (h : o.findMethod? i m = none) :
    (o.registerMethod i m insig outsig (some cb)).2 = none ∧
    ((o.registerMethod i m insig outsig (some cb)).1).findMethod? i m =
      some { inputArgs_ := insig, outputArgs_ := outsig, callback_ := some cb } := by
  unfold Object.registerMethod
  split
  · next hc => simp at hc
  · rcases hif : SMap.find? o.interfaces_ i with _ | ifd
    · rw [SMap.getOrInsert_none default hif]
      dsimp only
      have hm0 : SMap.find? (default : InterfaceData).methods_ m = none := rfl
      rcases hem : SMap.emplace (default : InterfaceData).methods_ m
          { inputArgs_ := insig, outputArgs_ := outsig, callback_ := some cb }
        with ⟨ms, ins⟩
      dsimp only
      have hepl := SMap.emplace_of_find?_none
        (v := { inputArgs_ := insig, outputArgs_ := outsig
                callback_ := some cb : MethodData }) hm0
      rw [hem] at hepl
      have hins : ins = true := hepl.1
      subst hins
      rw [if_pos rfl]
      refine ⟨rfl, ?_⟩
      unfold Object.findMethod?
      rw [SMap.find?_set_self
        (SMap.emplace_of_find?_none (v := (default : InterfaceData)) hif).2]
      dsimp only [Option.bind]
      exact hepl.2
    · rw [SMap.getOrInsert_some default hif]
      dsimp only
      have hm0 : SMap.find? ifd.methods_ m = none := by
        unfold Object.findMethod? at h
        rw [hif] at h
        simpa using h
      rcases hem : SMap.emplace ifd.methods_ m
          { inputArgs_ := insig, outputArgs_ := outsig, callback_ := some cb }
        with ⟨ms, ins⟩
      dsimp only
      have hepl := SMap.emplace_of_find?_none
        (v := { inputArgs_ := insig, outputArgs_ := outsig
                callback_ := some cb : MethodData }) hm0
      rw [hem] at hepl
      have hins : ins = true := hepl.1
      subst hins
      rw [if_pos rfl]
      refine ⟨rfl, ?_⟩
      unfold Object.findMethod?
      rw [SMap.find?_set_self (v := { ifd with methods_ := ms }) hif]
      dsimp only [Option.bind]
      exact hepl.2

theorem registerSignal_fresh {o : Object} {i n : String} (sig : String)
    (h : o.findSignal? i n = none) :
    (o.registerSignal i n sig).2 = none ∧
    ((o.registerSignal i n sig).1).findSignal? i n =
      some { signature_ := sig } := by
  unfold Object.registerSignal
  rcases hif : SMap.find? o.interfaces_ i with _ | ifd
  · rw [SMap.getOrInsert_none default hif]
    dsimp only
    have hn0 : SMap.find? (default : InterfaceData).signals_ n = none := rfl
    rcases hem : SMap.emplace (default : InterfaceData).signals_ n
        { signature_ := sig } with ⟨ss, ins⟩
    dsimp only
    have hepl := SMap.emplace_of_find?_none
      (v := { signature_ := sig : SignalData }) hn0
    rw [hem] at hepl
    have hins : ins = true := hepl.1
    subst hins
    rw [if_pos rfl]
    refine ⟨rfl, ?_⟩
    unfold Object.findSignal?
    rw [SMap.find?_set_self
      (SMap.emplace_of_find?_none (v := (default : InterfaceData)) hif).2]
    dsimp only [Option.bind]
    exact hepl.2
  · rw [SMap.getOrInsert_some default hif]
    dsimp only
    have hn0 : SMap.find? ifd.signals_ n = none := by
      unfold Object.findSignal? at h
      rw [hif] at h
      simpa using h
    rcases hem : SMap.emplace ifd.signals_ n { signature_ := sig } with ⟨ss, ins⟩
    dsimp only
    have hepl := SMap.emplace_of_find?_none
      (v := { signature_ := sig : SignalData }) hn0
    rw [hem] at hepl
    have hins : ins = true := hepl.1
    subst hins
    rw [if_pos rfl]
    refine ⟨rfl, ?_⟩
    unfold Object.findSignal?
    rw [SMap.find?_set_self (v := { ifd with signals_ := ss }) hif]
    dsimp only [Option.bind]
    exact hepl.2

theorem registerProperty_fresh {o : Object} {i n : String} (sig : String)
    {g s : Option CbOutcome} (hv : g.isSome ∨ s.isSome)
    (h : o.findProperty? i n = none) :
    (o.registerProperty i n sig g s).2 = none ∧
    ((o.registerProperty i n sig g s).1).findProperty? i n =
      some { signature_ := sig, getCallback_ := g, setCallback_ := s } := by
  unfold Object.registerProperty
  split
  · next hc =>
    rcases hv with hv | hv <;>
      simp [Option.isSome_iff_exists] at hv <;>
      rcases hv with ⟨x, hx⟩ <;>
      rw [hx] at hc <;>
      simp at hc
  · rcases hif : SMap.find? o.interfaces_ i with _ | ifd
    · rw [SMap.getOrInsert_none default hif]
      dsimp only
      have hp0 : SMap.find? (default : InterfaceData).properties_ n = none := rfl
      rcases hem : SMap.emplace (default : InterfaceData).properties_ n
          { signature_ := sig, getCallback_ := g, setCallback_ := s } with ⟨ps, ins⟩
      dsimp only
      have hepl := SMap.emplace_of_find?_none
        (v := { signature_ := sig, getCallback_ := g
                setCallback_ := s : PropertyData }) hp0
      rw [hem] at hepl
      have hins : ins = true := hepl.1
      subst hins
      rw [if_pos rfl]
      refine ⟨rfl, ?_⟩
      unfold Object.findProperty?
      rw [SMap.find?_set_self
        (SMap.emplace_of_find?_none (v := (default : InterfaceData)) hif).2]
      dsimp only [Option.bind]
      exact hepl.2
    · rw [SMap.getOrInsert_some default hif]
      dsimp only
      have hp0 : SMap.find? ifd.properties_ n = none := by
        unfold Object.findProperty? at h
        rw [hif] at h
        simpa using h
      rcases hem : SMap.emplace ifd.properties_ n
          { signature_ := sig, getCallback_ := g, setCallback_ := s } with ⟨ps, ins⟩
      dsimp only
      have hepl := SMap.emplace_of_find?_none
        (v := { signature_ := sig, getCallback_ := g
                setCallback_ := s : PropertyData }) hp0
      rw [hem] at hepl
      have hins : ins = true := hepl.1
      subst hins
      rw [if_pos rfl]
      refine ⟨rfl, ?_⟩
      unfold Object.findProperty?
      rw [SMap.find?_set_self (v := { ifd with properties_ := ps }) hif]
      dsimp only [Option.bind]
      exact hepl.2

theorem createInterfaceVTable_nonempty {d : InterfaceData} (h : d.vtable_ ≠ []) :
    createInterfaceVTable d = none := by
  unfold createInterfaceVTable
  rcases hv : d.vtable_ with _ | ⟨x, xs⟩
  · exact absurd hv h
  · rfl

theorem createInterfaceVTable_vtable_ne {d d' : InterfaceData}
    {vt : List VTableItem} (h : createInterfaceVTable d = some (d', vt)) :
    d'.vtable_ = vt ∧ vt ≠ [] := by
  unfold createInterfaceVTable at h
  split at h
  · cases h
    exact ⟨rfl, List.cons_ne_nil _ _⟩
  · cases h

theorem finishInterfaces_vtables_ne {l l' : SMap InterfaceData}
    (h : finishInterfaces l = some l') : ∀ q ∈ l', q.2.vtable_ ≠ [] := by
  induction l generalizing l' with
  | nil =>
    rw [finishInterfaces] at h
    cases h
    intro q hq
    cases hq
  | cons p rest ih =>
    obtain ⟨n, d⟩ := p
    rw [finishInterfaces] at h
    rcases hc : createInterfaceVTable d with _ | ⟨d1, vt⟩
    · rw [hc] at h
      cases h
    · rw [hc] at h
      dsimp only at h
      rcases hf : finishInterfaces rest with _ | rest'
      · rw [hf] at h
        cases h
      · rw [hf] at h
        dsimp only at h
        cases h
        intro q hq
        rcases List.mem_cons.1 hq with h1 | h1
        · rw [h1]
          have hne := createInterfaceVTable_vtable_ne hc
          show ({ d1 with slot_ := true } : InterfaceData).vtable_ ≠ []
          rw [show ({ d1 with slot_ := true } : InterfaceData).vtable_ = d1.vtable_
            from rfl, hne.1]
          exact hne.2
        · exact ih hf q h1

theorem finishInterfaces_cons_none {q : String × InterfaceData}
    {rest : SMap InterfaceData} (h : createInterfaceVTable q.2 = none) :
    finishInterfaces (q :: rest) = none := by
  obtain ⟨n, d⟩ := q
  rw [finishInterfaces, h]

/-- Does this vtable item describe a method of the given name? -/
def VTableItem.isMethodNamed (n : String) : VTableItem → Bool
  | .methodItem n' _ _ => n' == n
  | _ => false

/-- Does this vtable item describe a signal of the given name? -/
def VTableItem.isSignalNamed (n : String) : VTableItem → Bool
  | .signalItem n' _ => n' == n
  | _ => false

/-- Does this vtable item describe a property (read-only or writable) of the
given name? -/
def VTableItem.isPropertyNamed (n : String) : VTableItem → Bool
  | .propertyItem n' _ => n' == n
  | .writablePropertyItem n' _ => n' == n
  | _ => false

theorem countP_fst_eq_zero {α : Type} {l : SMap α} {n : String}
    (h : n ∉ SMap.keys l) : l.countP (fun q => q.1 == n) = 0 := by
  rw [List.countP_eq_zero]
  intro q hq
  simp only [beq_iff_eq]
  intro hqn
  exact h (hqn ▸ List.mem_map.2 ⟨q, hq, rfl⟩)

theorem countP_fst_eq_one {α : Type} {l : SMap α} {n : String}
    (hk : SMap.Keyed l) (h : n ∈ SMap.keys l) :
    l.countP (fun q => q.1 == n) = 1 := by
  induction l with
  | nil => simp [SMap.keys] at h
  | cons p rest ih =>
    rw [SMap.keys_cons] at h
    rw [List.countP_cons]
    rcases List.mem_cons.1 h with h1 | h1
    · have hz : n ∉ SMap.keys rest := by
        intro hmem
        rcases List.mem_map.1 hmem with ⟨q, hq, hqn⟩
        have hlt := (List.pairwise_cons.1 hk).1 q hq
        rw [hqn, ← h1] at hlt
        exact absurd (h1 ▸ hlt) (lt_irrefl n)
      rw [countP_fst_eq_zero hz]
      simp [h1]
    · have hlt : p.1 < n := by
        rcases List.mem_map.1 h1 with ⟨q, hq, hqn⟩
        have := (List.pairwise_cons.1 hk).1 q hq
        rw [hqn] at this
        exact this
      rw [ih (List.pairwise_cons.1 hk).2 h1]
      simp [ne_of_lt hlt]

theorem countP_map_eq {β γ : Type} (l : List β) (f : β → γ)
    (p : γ → Bool) (g : β → Bool) (hf : ∀ q ∈ l, p (f q) = g q) :
    (l.map f).countP p = l.countP g := by
  induction l with
  | nil => rfl
  | cons a t ih =>
    rw [List.map_cons, List.countP_cons, List.countP_cons,
      hf a (List.mem_cons_self a t),
      ih fun q hq => hf q (List.mem_cons_of_mem _ hq)]

theorem countP_false_eq_zero {β : Type} (l : List β) :
    l.countP (fun _ => false) = 0 := by
  induction l with
  | nil => rfl
  | cons a t ih =>
    rw [List.countP_cons, ih]
    simp

theorem countP_map_zero {β γ : Type} (l : List β) (f : β → γ)
    (p : γ → Bool) (hf : ∀ q ∈ l, p (f q) = false) :
    (l.map f).countP p = 0 := by
  rw [countP_map_eq l f p (fun _ => false) hf, countP_false_eq_zero]

/-! Concrete objects used to exercise the claim theorems on concrete
inputs. -/

/-- An object with one method whose callback returns normally. -/
def calcObject : Object :=
  ((Object.mkObject "/calc").registerMethod "com.example.Calc" "Sum" "ii" "i"
    (some CbOutcome.normal)).1

/-- The descriptor of a method whose callback throws a typed error. -/
def failingMethodData : MethodData :=
  { inputArgs_ := "ii", outputArgs_ := "i"
    callback_ := some (CbOutcome.sdbusError "com.example.Error.Bad" "bad input") }

/-- An object with one method whose callback throws a typed sdbus::Error. -/
def badCalcObject : Object :=
  ((Object.mkObject "/calc").registerMethod "com.example.Calc" "Fail" "ii" "i"
    failingMethodData.callback_).1

/-- The descriptor of a write-only property (setter only). -/
def writeOnlyPropertyData : PropertyData :=
  { signature_ := "s", getCallback_ := none, setCallback_ := some CbOutcome.normal }

/-- An object with one write-only property. -/
def writeOnlyObject : Object :=
  ((Object.mkObject "/props").registerProperty "com.example.Props" "Secret" "s"
    none (some CbOutcome.normal)).1

/-- C10: registerMethod with an empty callback, and registerProperty (both
overloads) with all callbacks empty, fail with the invalid-argument
sdbus::Error (EINVAL) and return the object exactly unchanged: the
validation precedes any access to the interface map, so no interface entry
is created even for a previously unseen interface name. -/
theorem invalid_callbacks_rejected_before_map_access
    (o : Object) (i m sig insig outsig : String) :
    o.registerMethod i m insig outsig none =
      (o, some { message := "Invalid method callback provided"
                 errorCode := EINVAL }) ∧
    o.registerProperty i m sig none none =
      (o, some { message := "Invalid property callbacks provided"
                 errorCode := EINVAL }) ∧
    o.registerPropertyReadOnly i m sig none =
      (o, some { message := "Invalid property callbacks provided"
                 errorCode := EINVAL }) :=
  ⟨rfl, rfl, rfl⟩

/-- C3: for a dispatched method call on a registered (interface, member): a
callback that completes normally leads to the normal reply being sent; a
callback that throws a typed sdbus::Error with symbolic name n and message
msg leads to a wire-level error reply carrying exactly n and msg, and the
normal reply is never sent. -/
theorem method_dispatch_reply_or_error_translation
    (o : Object) (i m : String) (md : MethodData)
    (h : o.findMethod? i m = some md) :
    (md.callback_ = some CbOutcome.normal →
      (o.sdbus_method_callback i m).result = DispatchResult.replied) ∧
    (∀ n msg, md.callback_ = some (CbOutcome.sdbusError n msg) →
      (o.sdbus_method_callback i m).result = DispatchResult.errorReply n msg ∧
      (o.sdbus_method_callback i m).result ≠ DispatchResult.replied) := by
  constructor
  · intro hcb
    rw [sdbus_method_callback_eq, methodLookup_registered h]
    dsimp only
    rw [hcb]
  · intro n msg hcb
    rw [sdbus_method_callback_eq, methodLookup_registered h]
    dsimp only
    rw [hcb]
    exact ⟨rfl, by simp⟩

/-- Witness for C3 at a concrete object: the (interface, member) pair is
registered with a callback throwing name com.example.Error.Bad and message
bad input, and the dispatch outcome follows the theorem. -/
theorem method_dispatch_reply_or_error_translation_witness :
    badCalcObject.findMethod? "com.example.Calc" "Fail" = some failingMethodData ∧
    ((failingMethodData.callback_ = some CbOutcome.normal →
      (badCalcObject.sdbus_method_callback "com.example.Calc" "Fail").result =
        DispatchResult.replied) ∧
    (∀ n msg, failingMethodData.callback_ = some (CbOutcome.sdbusError n msg) →
      (badCalcObject.sdbus_method_callback "com.example.Calc" "Fail").result =
        DispatchResult.errorReply n msg ∧
      (badCalcObject.sdbus_method_callback "com.example.Calc" "Fail").result ≠
        DispatchResult.replied)) :=
  ⟨by decide,
   method_dispatch_reply_or_error_translation badCalcObject "com.example.Calc"
     "Fail" failingMethodData (by decide)⟩

/-- C4: dispatching a property get on a registered property whose getter is
absent invokes no callback, produces no normal reply, and reports exactly
the org.freedesktop.DBus.Error.Failed error with the write-only message. -/
theorem write_only_property_get_reports_failed
    (o : Object) (i p : String) (pd : PropertyData)
    (h : o.findProperty? i p = some pd) (hg : pd.getCallback_ = none) :
    (o.sdbus_property_get_callback i p).callbackInvoked = false ∧
    (o.sdbus_property_get_callback i p).result =
      DispatchResult.errorReply "org.freedesktop.DBus.Error.Failed"
        "Cannot read property as it is write-only" ∧
    (o.sdbus_property_get_callback i p).result ≠ DispatchResult.returnedOnly := by
  rw [sdbus_property_get_callback_eq, propLookup_registered h]
  dsimp only
  rw [hg]
  exact ⟨rfl, rfl, by simp⟩

/-- Witness for C4 at a concrete object holding one write-only property. -/
theorem write_only_property_get_reports_failed_witness :
    writeOnlyObject.findProperty? "com.example.Props" "Secret" =
      some writeOnlyPropertyData ∧
    writeOnlyPropertyData.getCallback_ = none ∧
    ((writeOnlyObject.sdbus_property_get_callback "com.example.Props"
        "Secret").callbackInvoked = false ∧
    (writeOnlyObject.sdbus_property_get_callback "com.example.Props"
        "Secret").result =
      DispatchResult.errorReply "org.freedesktop.DBus.Error.Failed"
        "Cannot read property as it is write-only" ∧
    (writeOnlyObject.sdbus_property_get_callback "com.example.Props"
        "Secret").result ≠ DispatchResult.returnedOnly) :=
  ⟨by decide, by decide,
   write_only_property_get_reports_failed writeOnlyObject "com.example.Props"
     "Secret" writeOnlyPropertyData (by decide) (by decide)⟩

/-- An object with one method whose callback throws an exception that is
not an sdbus::Error. -/
def throwingCbObject : Object :=
  ((Object.mkObject "/boundary").registerMethod "com.example.Iface" "Boom"
    "" "" (some CbOutcome.otherException)).1

/-- C2 counterexample: the catch clauses catch only sdbus::Error, so a
callback throwing any other exception escapes the entry point across the
transport boundary instead of the entry point returning normally. -/
theorem dispatch_exception_escapes_counterexample :
    (throwingCbObject.sdbus_method_callback "com.example.Iface" "Boom").result =
      DispatchResult.uncaughtException ∧
    (throwingCbObject.sdbus_method_callback "com.example.Iface" "Boom").result ≠
      DispatchResult.replied ∧
    (throwingCbObject.sdbus_method_callback "com.example.Iface" "Boom").result ≠
      DispatchResult.returnedOnly := by
  decide

/-- C2 amended: an entry point lets an exception escape across the
transport boundary exactly when the callback it resolves throws something
other than a typed sdbus::Error; callbacks that return normally or throw an
sdbus::Error never cause an escape (the error is translated instead). -/
theorem dispatch_escapes_iff_non_sdbus_exception (o : Object) (i m p : String) :
    ((o.sdbus_method_callback i m).result = DispatchResult.uncaughtException ↔
      o.resolvedMethodCb i m = some CbOutcome.otherException) ∧
    ((o.sdbus_property_get_callback i p).result =
        DispatchResult.uncaughtException ↔
      o.resolvedGetCb i p = some CbOutcome.otherException) ∧
    ((o.sdbus_property_set_callback i p).result =
        DispatchResult.uncaughtException ↔
      o.resolvedSetCb i p = some CbOutcome.otherException) := by
  refine ⟨?_, ?_, ?_⟩
  · rcases hf : o.findMethod? i m with _ | md
    · have hl := methodLookup_unregistered hf
      have hres : o.resolvedMethodCb i m = none := by
        unfold Object.resolvedMethodCb
        rw [hf]
        rfl
      rw [sdbus_method_callback_eq, hl.1,
        show (default : MethodData).callback_ = none from rfl, hres]
      simp
    · have hres : o.resolvedMethodCb i m = md.callback_ := by
        unfold Object.resolvedMethodCb
        rw [hf]
        rfl
      rw [sdbus_method_callback_eq, methodLookup_registered hf, hres]
      dsimp only
      rcases md.callback_ with _ | cb
      · simp
      · cases cb <;> simp
  · rcases hf : o.findProperty? i p with _ | pd
    · have hl := propLookup_unregistered hf
      have hres : o.resolvedGetCb i p = none := by
        unfold Object.resolvedGetCb
        rw [hf]
        rfl
      rw [sdbus_property_get_callback_eq, hl.1,
        show (default : PropertyData).getCallback_ = none from rfl, hres]
      simp
    · have hres : o.resolvedGetCb i p = pd.getCallback_ := by
        unfold Object.resolvedGetCb
        rw [hf]
        rfl
      rw [sdbus_property_get_callback_eq, propLookup_registered hf, hres]
      dsimp only
      rcases pd.getCallback_ with _ | cb
      · simp
      · cases cb <;> simp
  · rcases hf : o.findProperty? i p with _ | pd
    · have hl := propLookup_unregistered hf
      have hres : o.resolvedSetCb i p = none := by
        unfold Object.resolvedSetCb
        rw [hf]
        rfl
      rw [sdbus_property_set_callback_eq, hl.1,
        show (default : PropertyData).setCallback_ = none from rfl, hres]
      simp
    · have hres : o.resolvedSetCb i p = pd.setCallback_ := by
        unfold Object.resolvedSetCb
        rw [hf]
        rfl
      rw [sdbus_property_set_callback_eq, propLookup_registered hf, hres]
      dsimp only
      rcases pd.setCallback_ with _ | cb
      · simp
      · cases cb <;> simp

/-- C9: a dispatch whose (interface, member) pair is registered leaves the
registry unchanged; a dispatch naming an unregistered pair mutates the
registry through the operator-bracket lookups, which default-insert an
empty entry for the pair. -/
theorem dispatch_lookup_frame_effect (o : Object) (i m p : String) :
    ((o.sdbus_method_callback i m).post = o ↔ (o.findMethod? i m).isSome) ∧
    (o.findMethod? i m = none →
      ((o.sdbus_method_callback i m).post).findMethod? i m = some default) ∧
    ((o.sdbus_property_get_callback i p).post = o ↔
      (o.findProperty? i p).isSome) ∧
    (o.findProperty? i p = none →
      ((o.sdbus_property_get_callback i p).post).findProperty? i p =
        some default) ∧
    ((o.sdbus_property_set_callback i p).post = o ↔
      (o.findProperty? i p).isSome) ∧
    (o.findProperty? i p = none →
      ((o.sdbus_property_set_callback i p).post).findProperty? i p =
        some default) := by
  refine ⟨?_, ?_, ?_, ?_, ?_, ?_⟩
  · rw [sdbus_method_callback_post]
    rcases hq : o.findMethod? i m with _ | md
    · simp only [Option.isSome_none, Bool.false_eq_true, iff_false]
      exact (methodLookup_unregistered hq).2.2
    · simp only [Option.isSome_some, iff_true]
      rw [methodLookup_registered hq]
  · intro hq
    rw [sdbus_method_callback_post]
    exact (methodLookup_unregistered hq).2.1
  · rw [sdbus_property_get_callback_post]
    rcases hq : o.findProperty? i p with _ | pd
    · simp only [Option.isSome_none, Bool.false_eq_true, iff_false]
      exact (propLookup_unregistered hq).2.2
    · simp only [Option.isSome_some, iff_true]
      rw [propLookup_registered hq]
  · intro hq
    rw [sdbus_property_get_callback_post]
    exact (propLookup_unregistered hq).2.1
  · rw [sdbus_property_set_callback_post]
    rcases hq : o.findProperty? i p with _ | pd
    · simp only [Option.isSome_none, Bool.false_eq_true, iff_false]
      exact (propLookup_unregistered hq).2.2
    · simp only [Option.isSome_some, iff_true]
      rw [propLookup_registered hq]
  · intro hq
    rw [sdbus_property_set_callback_post]
    exact (propLookup_unregistered hq).2.1

/-- C7: member names are unique within their category (every registration
preserves the map representation invariant), and a registration naming an
already-registered member of the same category fails with the
already-exists sdbus::Error while returning the object exactly unchanged,
so the first registration's descriptor remains intact. -/
theorem duplicate_member_registration_rejected
    (o : Object) (hwf : o.WF) (i n : String) :
    (∀ insig outsig cb md, o.findMethod? i n = some md →
      o.registerMethod i n insig outsig (some cb) =
        (o, some { message := "Failed to register method: method already exists"
                   errorCode := EINVAL })) ∧
    (∀ sig sd, o.findSignal? i n = some sd →
      o.registerSignal i n sig =
        (o, some { message := "Failed to register signal: signal already exists"
                   errorCode := EINVAL })) ∧
    (∀ sig g s pd, o.findProperty? i n = some pd → (g.isSome ∨ s.isSome) →
      o.registerProperty i n sig g s =
        (o, some { message := "Failed to register property: property already exists"
                   errorCode := EINVAL })) ∧
    (∀ i' n' insig outsig cb, ((o.registerMethod i' n' insig outsig cb).1).WF) ∧
    (∀ i' n' sig, ((o.registerSignal i' n' sig).1).WF) ∧
    (∀ i' n' sig g s, ((o.registerProperty i' n' sig g s).1).WF) := by
  refine ⟨?_, ?_, ?_,
    fun i' n' insig outsig cb => registerMethod_WF hwf i' n' insig outsig cb,
    fun i' n' sig => registerSignal_WF hwf i' n' sig,
    fun i' n' sig g s => registerProperty_WF hwf i' n' sig g s⟩
  · intro insig outsig cb md hmd
    rcases Option.bind_eq_some.1 hmd with ⟨ifd, hif, hm⟩
    unfold Object.registerMethod
    split
    · next hc => simp at hc
    · rw [SMap.getOrInsert_some default hif]
      dsimp only
      have hkeyed : SMap.Keyed ifd.methods_ :=
        (hwf.2 (i, ifd) (SMap.find?_some_mem hif)).1
      rw [SMap.emplace_of_find?_some hkeyed hm]
      dsimp only
      rw [if_neg (by simp),
        show ({ ifd with methods_ := ifd.methods_ } : InterfaceData) = ifd
          from rfl,
        SMap.set_of_find?_some hif]
  · intro sig sd hsd
    rcases Option.bind_eq_some.1 hsd with ⟨ifd, hif, hs⟩
    unfold Object.registerSignal
    rw [SMap.getOrInsert_some default hif]
    dsimp only
    have hkeyed : SMap.Keyed ifd.signals_ :=
      (hwf.2 (i, ifd) (SMap.find?_some_mem hif)).2.1
    rw [SMap.emplace_of_find?_some hkeyed hs]
    dsimp only
    rw [if_neg (by simp),
      show ({ ifd with signals_ := ifd.signals_ } : InterfaceData) = ifd
        from rfl,
      SMap.set_of_find?_some hif]
  · intro sig g s pd hpd hv
    rcases Option.bind_eq_some.1 hpd with ⟨ifd, hif, hp⟩
    unfold Object.registerProperty
    split
    · next hc =>
      rcases hv with hv | hv <;>
        simp [Option.isSome_iff_exists] at hv <;>
        rcases hv with ⟨x, hx⟩ <;>
        rw [hx] at hc <;>
        simp at hc
    · rw [SMap.getOrInsert_some default hif]
      dsimp only
      have hkeyed : SMap.Keyed ifd.properties_ :=
        (hwf.2 (i, ifd) (SMap.find?_some_mem hif)).2.2
      rw [SMap.emplace_of_find?_some hkeyed hp]
      dsimp only
      rw [if_neg (by simp),
        show ({ ifd with properties_ := ifd.properties_ } : InterfaceData) = ifd
          from rfl,
        SMap.set_of_find?_some hif]

/-- Witness for C7 at a concrete object: re-registering the method Sum, the
signal Tick, and the property Volume of interface com.example.Calc is
rejected with the already-exists error and the object is unchanged, and
well-formedness is preserved. -/
theorem duplicate_member_registration_rejected_witness :
    calcObject.WF ∧
    ((∀ insig outsig cb md,
        calcObject.findMethod? "com.example.Calc" "Sum" = some md →
        calcObject.registerMethod "com.example.Calc" "Sum" insig outsig
            (some cb) =
          (calcObject,
           some { message := "Failed to register method: method already exists"
                  errorCode := EINVAL })) ∧
    (∀ sig sd,
        calcObject.findSignal? "com.example.Calc" "Sum" = some sd →
        calcObject.registerSignal "com.example.Calc" "Sum" sig =
          (calcObject,
           some { message := "Failed to register signal: signal already exists"
                  errorCode := EINVAL })) ∧
    (∀ sig g s pd,
        calcObject.findProperty? "com.example.Calc" "Sum" = some pd →
        (g.isSome ∨ s.isSome) →
        calcObject.registerProperty "com.example.Calc" "Sum" sig g s =
          (calcObject,
           some { message := "Failed to register property: property already exists"
                  errorCode := EINVAL })) ∧
    (∀ i' n' insig outsig cb,
        ((calcObject.registerMethod i' n' insig outsig cb).1).WF) ∧
    (∀ i' n' sig, ((calcObject.registerSignal i' n' sig).1).WF) ∧
    (∀ i' n' sig g s,
        ((calcObject.registerProperty i' n' sig g s).1).WF)) :=
  ⟨by decide,
   duplicate_member_registration_rejected calcObject (by decide)
     "com.example.Calc" "Sum"⟩

/-- A finalized object: one interface with one signal, after
finishRegistration. -/
def finalizedObject : Object :=
  ((((Object.mkObject "/c1").registerSignal "org.example.Iface" "Tick"
    "b").1).finishRegistration).getD (Object.mkObject "/c1")

/-- C1 counterexample: registering a fresh method on a finalized object
does not fail at all (in particular not with InvalidState) and modifies the
registry: the code has no finalization-state check in the registration
entry points. -/
theorem registration_after_finalize_counterexample :
    (((Object.mkObject "/c1").registerSignal "org.example.Iface" "Tick"
        "b").1).finishRegistration = some finalizedObject ∧
    (finalizedObject.registerMethod "org.example.Iface" "Second" "i" "i"
        (some CbOutcome.normal)).2 = none ∧
    (finalizedObject.registerMethod "org.example.Iface" "Second" "i" "i"
        (some CbOutcome.normal)).1 ≠ finalizedObject := by
  decide

/-- C1 amended: the registration entry points perform no finalization-state
check: after finishRegistration, registering a method (with a bound
callback), a signal, or a property (with at least one callback) under a
fresh name still succeeds with no error and inserts the member into the
registry. -/
theorem registration_after_finalize_not_checked
    (o o' : Object) (i m insig outsig sig : String) (cb : CbOutcome)
    (g s : Option CbOutcome) (_hfin : o.finishRegistration = some o') :
    (o'.findMethod? i m = none →
      (o'.registerMethod i m insig outsig (some cb)).2 = none ∧
      ((o'.registerMethod i m insig outsig (some cb)).1).findMethod? i m =
        some { inputArgs_ := insig, outputArgs_ := outsig
               callback_ := some cb }) ∧
    (o'.findSignal? i m = none →
      (o'.registerSignal i m sig).2 = none ∧
      ((o'.registerSignal i m sig).1).findSignal? i m =
        some { signature_ := sig }) ∧
    (o'.findProperty? i m = none → g.isSome ∨ s.isSome →
      (o'.registerProperty i m sig g s).2 = none ∧
      ((o'.registerProperty i m sig g s).1).findProperty? i m =
        some { signature_ := sig, getCallback_ := g, setCallback_ := s }) :=
  ⟨fun h => registerMethod_fresh insig outsig cb h,
   fun h => registerSignal_fresh sig h,
   fun h hv => registerProperty_fresh sig hv h⟩

/-- Witness for the amended C1 at the concrete finalized object. -/
theorem registration_after_finalize_not_checked_witness :
    (((Object.mkObject "/c1").registerSignal "org.example.Iface" "Tick"
        "b").1).finishRegistration = some finalizedObject ∧
    ((finalizedObject.findMethod? "org.example.Iface" "Second" = none →
      (finalizedObject.registerMethod "org.example.Iface" "Second" "s" "s"
          (some CbOutcome.normal)).2 = none ∧
      ((finalizedObject.registerMethod "org.example.Iface" "Second" "s" "s"
          (some CbOutcome.normal)).1).findMethod? "org.example.Iface" "Second" =
        some { inputArgs_ := "s", outputArgs_ := "s"
               callback_ := some CbOutcome.normal }) ∧
    (finalizedObject.findSignal? "org.example.Iface" "Second" = none →
      (finalizedObject.registerSignal "org.example.Iface" "Second" "b").2 =
        none ∧
      ((finalizedObject.registerSignal "org.example.Iface" "Second"
          "b").1).findSignal? "org.example.Iface" "Second" =
        some { signature_ := "b" }) ∧
    (finalizedObject.findProperty? "org.example.Iface" "Second" = none →
      (some CbOutcome.normal : Option CbOutcome).isSome ∨
        (none : Option CbOutcome).isSome →
      (finalizedObject.registerProperty "org.example.Iface" "Second" "b"
          (some CbOutcome.normal) none).2 = none ∧
      ((finalizedObject.registerProperty "org.example.Iface" "Second" "b"
          (some CbOutcome.normal) none).1).findProperty? "org.example.Iface"
          "Second" =
        some { signature_ := "b", getCallback_ := some CbOutcome.normal
               setCallback_ := none })) :=
  ⟨by decide,
   registration_after_finalize_not_checked
     (((Object.mkObject "/c1").registerSignal "org.example.Iface" "Tick"
         "b").1)
     finalizedObject "org.example.Iface" "Second" "s" "s" "b"
     CbOutcome.normal (some CbOutcome.normal) none (by decide)⟩

/-- C8 counterexample: on an object with no registered interface, calling
finishRegistration twice succeeds both times (the loop body never runs), so
the second call does not fail with InvalidState or any other error. -/
theorem second_finalize_counterexample :
    (Object.mkObject "/c8").finishRegistration = some (Object.mkObject "/c8") ∧
    ((Object.mkObject "/c8").finishRegistration.bind
        Object.finishRegistration) = some (Object.mkObject "/c8") := by
  decide

/-- C8 amended: a second finishRegistration on an object with at least one
interface hits the vtable-empty assertion inside createInterfaceVTable
(modelled as the aborting none), not an InvalidState error; on an object
with no interfaces it is a silent success; and createInterfaceVTable on an
interface whose vtable already exists likewise asserts. -/
theorem second_finalize_asserts (o o' : Object)
    (h : o.finishRegistration = some o') :
    (o'.interfaces_ ≠ [] → o'.finishRegistration = none) ∧
    (o'.interfaces_ = [] → o'.finishRegistration = some o') ∧
    (∀ d : InterfaceData, d.vtable_ ≠ [] → createInterfaceVTable d = none) := by
  have hl : ∃ l', finishInterfaces o.interfaces_ = some l' ∧
      o' = { o with interfaces_ := l' } := by
    unfold Object.finishRegistration at h
    rcases hfi : finishInterfaces o.interfaces_ with _ | l'
    · rw [hfi] at h
      cases h
    · rw [hfi] at h
      exact ⟨l', rfl, (Option.some.inj h).symm⟩
  rcases hl with ⟨l', hfi, ho'⟩
  refine ⟨?_, ?_, fun d hd => createInterfaceVTable_nonempty hd⟩
  · intro hne
    have hvt := finishInterfaces_vtables_ne hfi
    unfold Object.finishRegistration
    rcases hint : o'.interfaces_ with _ | ⟨q, rest⟩
    · exact absurd hint hne
    · have hmem : q ∈ l' := by
        have hil : o'.interfaces_ = l' := by rw [ho']
        rw [hil] at hint
        rw [hint]
        exact List.mem_cons_self q rest
      have hcq : createInterfaceVTable q.2 = none :=
        createInterfaceVTable_nonempty (hvt q hmem)
      rw [finishInterfaces_cons_none hcq]
      rfl
  · intro hempty
    have hobj : ({ o' with interfaces_ := ([] : SMap InterfaceData) } :
        Object) = o' := by
      rw [← hempty]
    unfold Object.finishRegistration
    rw [hempty]
    show some { o' with interfaces_ := ([] : SMap InterfaceData) } = some o'
    rw [hobj]

/-- Witness for the amended C8 at the concrete finalized object, whose
registry is nonempty: the second finalize aborts on the assertion. -/
theorem second_finalize_asserts_witness :
    (((Object.mkObject "/c1").registerSignal "org.example.Iface" "Tick"
        "b").1).finishRegistration = some finalizedObject ∧
    ((finalizedObject.interfaces_ ≠ [] →
        finalizedObject.finishRegistration = none) ∧
    (finalizedObject.interfaces_ = [] →
        finalizedObject.finishRegistration = some finalizedObject) ∧
    (∀ d : InterfaceData, d.vtable_ ≠ [] → createInterfaceVTable d = none)) :=
  ⟨by decide,
   second_finalize_asserts
     (((Object.mkObject "/c1").registerSignal "org.example.Iface" "Tick"
         "b").1)
     finalizedObject (by decide)⟩

/-- C5: at finalization, the dispatch table built for an interface is
exactly one start marker, then the registered methods in map order, then
the registered signals, then the registered properties, then one end
marker; in particular every registered member contributes exactly one
entry of its kind, the table holds nothing else, and the table is stored
on the interface entry. -/
theorem dispatch_table_layout (d : InterfaceData)
    (h0 : d.vtable_ = []) (hwf : d.WF) :
    ∃ d' : InterfaceData,
      createInterfaceVTable d = some (d', d'.vtable_) ∧
      d'.vtable_ =
        [VTableItem.startItem]
          ++ d.methods_.map (fun q =>
              VTableItem.methodItem q.1 q.2.inputArgs_ q.2.outputArgs_)
          ++ d.signals_.map (fun q => VTableItem.signalItem q.1 q.2.signature_)
          ++ d.properties_.map (fun q =>
              if q.2.setCallback_.isNone then
                VTableItem.propertyItem q.1 q.2.signature_
              else VTableItem.writablePropertyItem q.1 q.2.signature_)
          ++ [VTableItem.endItem] ∧
      d'.vtable_.length =
        d.methods_.length + d.signals_.length + d.properties_.length + 2 ∧
      (∀ n ∈ SMap.keys d.methods_,
        d'.vtable_.countP (VTableItem.isMethodNamed n) = 1) ∧
      (∀ n ∈ SMap.keys d.signals_,
        d'.vtable_.countP (VTableItem.isSignalNamed n) = 1) ∧
      (∀ n ∈ SMap.keys d.properties_,
        d'.vtable_.countP (VTableItem.isPropertyNamed n) = 1) ∧
      d'.vtable_.countP (fun it => it == VTableItem.startItem) = 1 ∧
      d'.vtable_.countP (fun it => it == VTableItem.endItem) = 1 := by
  refine ⟨{ d with vtable_ :=
      [VTableItem.startItem]
        ++ d.methods_.map (fun q =>
            VTableItem.methodItem q.1 q.2.inputArgs_ q.2.outputArgs_)
        ++ d.signals_.map (fun q => VTableItem.signalItem q.1 q.2.signature_)
        ++ d.properties_.map (fun q =>
            if q.2.setCallback_.isNone then
              VTableItem.propertyItem q.1 q.2.signature_
            else VTableItem.writablePropertyItem q.1 q.2.signature_)
        ++ [VTableItem.endItem] }, ?_, rfl, ?_, ?_, ?_, ?_, ?_, ?_⟩
  · unfold createInterfaceVTable
    rw [h0]
    rfl
  · dsimp only
    simp only [List.length_append, List.length_map, List.length_cons,
      List.length_nil]
    omega
  · intro n hn
    dsimp only
    simp only [List.countP_append]
    rw [countP_map_eq d.methods_ (fun q => VTableItem.methodItem q.1 q.2.inputArgs_ q.2.outputArgs_) (VTableItem.isMethodNamed n)
        (fun q => q.1 == n) (fun q _ => rfl),
      countP_fst_eq_one hwf.1 hn,
      countP_map_zero d.signals_ (fun q => VTableItem.signalItem q.1 q.2.signature_) (VTableItem.isMethodNamed n)
        (fun q _ => rfl),
      countP_map_zero d.properties_ (fun q =>
          if q.2.setCallback_.isNone then
            VTableItem.propertyItem q.1 q.2.signature_
          else VTableItem.writablePropertyItem q.1 q.2.signature_) (VTableItem.isMethodNamed n)
        (fun q _ => by
          cases hq : q.2.setCallback_.isNone <;>
            simp [hq, VTableItem.isMethodNamed])]
    simp [List.countP_cons, VTableItem.isMethodNamed]
  · intro n hn
    dsimp only
    simp only [List.countP_append]
    rw [countP_map_zero d.methods_ (fun q => VTableItem.methodItem q.1 q.2.inputArgs_ q.2.outputArgs_) (VTableItem.isSignalNamed n)
        (fun q _ => rfl),
      countP_map_eq d.signals_ (fun q => VTableItem.signalItem q.1 q.2.signature_) (VTableItem.isSignalNamed n)
        (fun q => q.1 == n) (fun q _ => rfl),
      countP_fst_eq_one hwf.2.1 hn,
      countP_map_zero d.properties_ (fun q =>
          if q.2.setCallback_.isNone then
            VTableItem.propertyItem q.1 q.2.signature_
          else VTableItem.writablePropertyItem q.1 q.2.signature_) (VTableItem.isSignalNamed n)
        (fun q _ => by
          cases hq : q.2.setCallback_.isNone <;>
            simp [hq, VTableItem.isSignalNamed])]
    simp [List.countP_cons, VTableItem.isSignalNamed]
  · intro n hn
    dsimp only
    simp only [List.countP_append]
    rw [countP_map_zero d.methods_ (fun q => VTableItem.methodItem q.1 q.2.inputArgs_ q.2.outputArgs_) (VTableItem.isPropertyNamed n)
        (fun q _ => rfl),
      countP_map_zero d.signals_ (fun q => VTableItem.signalItem q.1 q.2.signature_) (VTableItem.isPropertyNamed n)
        (fun q _ => rfl),
      countP_map_eq d.properties_ (fun q =>
          if q.2.setCallback_.isNone then
            VTableItem.propertyItem q.1 q.2.signature_
          else VTableItem.writablePropertyItem q.1 q.2.signature_) (VTableItem.isPropertyNamed n)
        (fun q => q.1 == n)
        (fun q _ => by
          cases hq : q.2.setCallback_.isNone <;>
            simp [hq, VTableItem.isPropertyNamed]),
      countP_fst_eq_one hwf.2.2 hn]
    simp [List.countP_cons, VTableItem.isPropertyNamed]
  · dsimp only
    simp only [List.countP_append]
    rw [countP_map_zero d.methods_ (fun q => VTableItem.methodItem q.1 q.2.inputArgs_ q.2.outputArgs_)
        (fun it => it == VTableItem.startItem) (fun q _ => rfl),
      countP_map_zero d.signals_ (fun q => VTableItem.signalItem q.1 q.2.signature_)
        (fun it => it == VTableItem.startItem) (fun q _ => rfl),
      countP_map_zero d.properties_ (fun q =>
          if q.2.setCallback_.isNone then
            VTableItem.propertyItem q.1 q.2.signature_
          else VTableItem.writablePropertyItem q.1 q.2.signature_)
        (fun it => it == VTableItem.startItem)
        (fun q _ => by
          cases hq : q.2.setCallback_.isNone <;> simp [hq])]
    simp [List.countP_cons]
  · dsimp only
    simp only [List.countP_append]
    rw [countP_map_zero d.methods_ (fun q => VTableItem.methodItem q.1 q.2.inputArgs_ q.2.outputArgs_)
        (fun it => it == VTableItem.endItem) (fun q _ => rfl),
      countP_map_zero d.signals_ (fun q => VTableItem.signalItem q.1 q.2.signature_)
        (fun it => it == VTableItem.endItem) (fun q _ => rfl),
      countP_map_zero d.properties_ (fun q =>
          if q.2.setCallback_.isNone then
            VTableItem.propertyItem q.1 q.2.signature_
          else VTableItem.writablePropertyItem q.1 q.2.signature_)
        (fun it => it == VTableItem.endItem)
        (fun q _ => by
          cases hq : q.2.setCallback_.isNone <;> simp [hq])]
    simp [List.countP_cons]

/-- A not-yet-finalized interface entry with one member of each
category. -/
def tableDemoData : InterfaceData :=
  { methods_ := [("Mul", { inputArgs_ := "ii", outputArgs_ := "i"
                           callback_ := some CbOutcome.normal })]
    signals_ := [("Tick", { signature_ := "b" })]
    properties_ := [("Volume", { signature_ := "i"
                                 getCallback_ := some CbOutcome.normal
                                 setCallback_ := some CbOutcome.normal })]
    vtable_ := []
    slot_ := false }

/-- Witness for C5 at a concrete interface entry with one method, one
signal, and one property. -/
theorem dispatch_table_layout_witness :
    tableDemoData.vtable_ = [] ∧ tableDemoData.WF ∧
    (∃ d' : InterfaceData,
      createInterfaceVTable tableDemoData = some (d', d'.vtable_) ∧
      d'.vtable_ =
        [VTableItem.startItem]
          ++ tableDemoData.methods_.map (fun q =>
              VTableItem.methodItem q.1 q.2.inputArgs_ q.2.outputArgs_)
          ++ tableDemoData.signals_.map (fun q =>
              VTableItem.signalItem q.1 q.2.signature_)
          ++ tableDemoData.properties_.map (fun q =>
              if q.2.setCallback_.isNone then
                VTableItem.propertyItem q.1 q.2.signature_
              else VTableItem.writablePropertyItem q.1 q.2.signature_)
          ++ [VTableItem.endItem] ∧
      d'.vtable_.length =
        tableDemoData.methods_.length + tableDemoData.signals_.length +
          tableDemoData.properties_.length + 2 ∧
      (∀ n ∈ SMap.keys tableDemoData.methods_,
        d'.vtable_.countP (VTableItem.isMethodNamed n) = 1) ∧
      (∀ n ∈ SMap.keys tableDemoData.signals_,
        d'.vtable_.countP (VTableItem.isSignalNamed n) = 1) ∧
      (∀ n ∈ SMap.keys tableDemoData.properties_,
        d'.vtable_.countP (VTableItem.isPropertyNamed n) = 1) ∧
      d'.vtable_.countP (fun it => it == VTableItem.startItem) = 1 ∧
      d'.vtable_.countP (fun it => it == VTableItem.endItem) = 1) :=
  ⟨rfl, by decide, dispatch_table_layout tableDemoData rfl (by decide)⟩

/-- C6: the table entry built for a registered property is a
writable-property entry exactly when a setter is bound and a read-only
property entry exactly when no setter is bound; a property with no setter
never appears as writable anywhere in the built table, and one with a
setter never appears as read-only. -/
theorem property_entry_shape_matches_setter (d : InterfaceData)
    (h0 : d.vtable_ = []) (hwf : d.WF) (n : String) (pd : PropertyData)
    (h : SMap.find? d.properties_ n = some pd) :
    ∃ d' : InterfaceData,
      createInterfaceVTable d = some (d', d'.vtable_) ∧
      (pd.setCallback_.isSome →
        VTableItem.writablePropertyItem n pd.signature_ ∈ d'.vtable_ ∧
        ∀ s, VTableItem.propertyItem n s ∉ d'.vtable_) ∧
      (pd.setCallback_ = none →
        VTableItem.propertyItem n pd.signature_ ∈ d'.vtable_ ∧
        ∀ s, VTableItem.writablePropertyItem n s ∉ d'.vtable_) := by
  refine ⟨{ d with vtable_ :=
      [VTableItem.startItem]
        ++ d.methods_.map (fun q =>
            VTableItem.methodItem q.1 q.2.inputArgs_ q.2.outputArgs_)
        ++ d.signals_.map (fun q => VTableItem.signalItem q.1 q.2.signature_)
        ++ d.properties_.map (fun q =>
            if q.2.setCallback_.isNone then
              VTableItem.propertyItem q.1 q.2.signature_
            else VTableItem.writablePropertyItem q.1 q.2.signature_)
        ++ [VTableItem.endItem] }, ?_, ?_, ?_⟩
  · unfold createInterfaceVTable
    rw [h0]
    rfl
  · intro hs
    constructor
    · dsimp only
      have hpmem : VTableItem.writablePropertyItem n pd.signature_ ∈
          d.properties_.map (fun q =>
            if q.2.setCallback_.isNone then
              VTableItem.propertyItem q.1 q.2.signature_
            else VTableItem.writablePropertyItem q.1 q.2.signature_) := by
        refine List.mem_map.2 ⟨(n, pd), SMap.find?_some_mem h, ?_⟩
        have hnone : pd.setCallback_.isNone = false := by
          rcases Option.isSome_iff_exists.1 hs with ⟨x, hx⟩
          rw [hx]
          rfl
        simp [hnone]
      exact List.mem_append.2 (Or.inl (List.mem_append.2 (Or.inr hpmem)))
    · intro s hmem
      dsimp only at hmem
      rcases List.mem_append.1 hmem with hmem | hmem
      · rcases List.mem_append.1 hmem with hmem | hmem
        · rcases List.mem_append.1 hmem with hmem | hmem
          · rcases List.mem_append.1 hmem with hmem | hmem
            · simp at hmem
            · rcases List.mem_map.1 hmem with ⟨q, _, hqe⟩
              simp at hqe
          · rcases List.mem_map.1 hmem with ⟨q, _, hqe⟩
            simp at hqe
        · rcases List.mem_map.1 hmem with ⟨q, hq, hqe⟩
          by_cases hqn : q.2.setCallback_.isNone
          · rw [if_pos hqn] at hqe
            injection hqe with h1 h2
            have hq' : (n, q.2) ∈ d.properties_ := by
              rw [← h1]
              exact hq
            have hfind := SMap.find?_of_mem_keyed hwf.2.2 hq'
            rw [h] at hfind
            have hqp : q.2 = pd := (Option.some.inj hfind).symm
            rw [hqp] at hqn
            rcases Option.isSome_iff_exists.1 hs with ⟨x, hx⟩
            rw [hx] at hqn
            simp at hqn
          · rw [if_neg hqn] at hqe
            simp at hqe
      · simp at hmem
  · intro hs
    constructor
    · dsimp only
      have hpmem : VTableItem.propertyItem n pd.signature_ ∈
          d.properties_.map (fun q =>
            if q.2.setCallback_.isNone then
              VTableItem.propertyItem q.1 q.2.signature_
            else VTableItem.writablePropertyItem q.1 q.2.signature_) := by
        refine List.mem_map.2 ⟨(n, pd), SMap.find?_some_mem h, ?_⟩
        have hnone : pd.setCallback_.isNone = true := by
          rw [hs]
          rfl
        simp [hnone]
      exact List.mem_append.2 (Or.inl (List.mem_append.2 (Or.inr hpmem)))
    · intro s hmem
      dsimp only at hmem
      rcases List.mem_append.1 hmem with hmem | hmem
      · rcases List.mem_append.1 hmem with hmem | hmem
        · rcases List.mem_append.1 hmem with hmem | hmem
          · rcases List.mem_append.1 hmem with hmem | hmem
            · simp at hmem
            · rcases List.mem_map.1 hmem with ⟨q, _, hqe⟩
              simp at hqe
          · rcases List.mem_map.1 hmem with ⟨q, _, hqe⟩
            simp at hqe
        · rcases List.mem_map.1 hmem with ⟨q, hq, hqe⟩
          by_cases hqn : q.2.setCallback_.isNone
          · rw [if_pos hqn] at hqe
            simp at hqe
          · rw [if_neg hqn] at hqe
            injection hqe with h1 h2
            have hq' : (n, q.2) ∈ d.properties_ := by
              rw [← h1]
              exact hq
            have hfind := SMap.find?_of_mem_keyed hwf.2.2 hq'
            rw [h] at hfind
            have hqp : q.2 = pd := (Option.some.inj hfind).symm
            rw [hqp, hs] at hqn
            simp at hqn
      · simp at hmem

/-- A not-yet-finalized interface entry with a single getter-only
property. -/
def readOnlyPropData : InterfaceData :=
  { methods_ := []
    signals_ := []
    properties_ := [("Version", { signature_ := "s"
                                  getCallback_ := some CbOutcome.normal
                                  setCallback_ := none })]
    vtable_ := []
    slot_ := false }

/-- Witness for C6 at a concrete interface entry holding one getter-only
property: its table entry is the read-only shape and no writable entry for
it exists. -/
theorem property_entry_shape_matches_setter_witness :
    readOnlyPropData.vtable_ = [] ∧ readOnlyPropData.WF ∧
    SMap.find? readOnlyPropData.properties_ "Version" =
      some { signature_ := "s", getCallback_ := some CbOutcome.normal
             setCallback_ := none } ∧
    (∃ d' : InterfaceData,
      createInterfaceVTable readOnlyPropData = some (d', d'.vtable_) ∧
      (({ signature_ := "s", getCallback_ := some CbOutcome.normal
          setCallback_ := none : PropertyData }).setCallback_.isSome →
        VTableItem.writablePropertyItem "Version"
            ({ signature_ := "s", getCallback_ := some CbOutcome.normal
               setCallback_ := none : PropertyData }).signature_ ∈
          d'.vtable_ ∧
        ∀ s, VTableItem.propertyItem "Version" s ∉ d'.vtable_) ∧
      (({ signature_ := "s", getCallback_ := some CbOutcome.normal
          setCallback_ := none : PropertyData }).setCallback_ = none →
        VTableItem.propertyItem "Version"
            ({ signature_ := "s", getCallback_ := some CbOutcome.normal
               setCallback_ := none : PropertyData }).signature_ ∈
          d'.vtable_ ∧
        ∀ s, VTableItem.writablePropertyItem "Version" s ∉ d'.vtable_)) :=
  ⟨rfl, by decide, by decide,
   property_entry_shape_matches_setter readOnlyPropData rfl (by decide)
     "Version"
     { signature_ := "s", getCallback_ := some CbOutcome.normal
       setCallback_ := none }
     (by decide)⟩

end SdbusCpp
